import Mathlib

set_option maxHeartbeats 1000000
set_option maxRecDepth 10000

/-!
Shallow embedding of the vector-instruction JIT compiler of
`Core/MIPS/RiscV/RiscVCompVec.cpp` (PPSSPP's RISC-V backend), together with
proofs about the emitted instruction sequences.

Modelling conventions:
* Guest float lanes and host float registers are identified by `Nat` register
  numbers, exactly as `inst.dest`, `inst.src1 + i`, ... in the source.
* Emitted host code is represented as explicit instruction lists; a small
  interpreter executes them over a register file `Nat → α`.
* The 64-bit integer scratch registers (`SCRATCH1`/`SCRATCH2`) are modelled as
  `Nat` with explicit `% 2 ^ 64` where a shift can overflow, and `FMV.X.W` /
  `FMV.W.X` transfers model RV64 sign-extension / low-32-bit truncation.
-/

/-! ### The in-place `Vec4Shuffle` move machine -/

/-- One `FMV` emitted by the in-place (`dest = src1`) branch of `Vec4Shuffle`:
a move into the temporary register, a move out of it, or a lane-to-lane move
inside the destination group (lane indices 0..3). -/
inductive ShufMove where
  | toTemp (src : Nat)
  | fromTemp (dst : Nat)
  | lane (dst src : Nat)
deriving DecidableEq

/-- `findIndex(arr, val, start)` of the source: the index returned by
`std::find(arr + start, arr + 4, val) - arr`, i.e. the first index `i` with
`start ≤ i < 4` and `arr[i] = val`, and 4 (`NOT_FOUND`) when there is none. -/
def findIndex (arr : List Nat) (val start : Nat) : Nat :=
  (((List.range 4).filter fun i => decide (start ≤ i) && decide (arr.getD i 0 = val)).headD 4)

/-- The chained-move part of `moveChained`: for each adjacent pair of the
`lanes` list it emits `FMV(dest + lanes[i-1], dest + lanes[i])` and performs
`state[lanes[i-1]] = state[lanes[i]]` on the tracked lane state. -/
def moveChainedAux (st : List Nat) : List Nat → List ShufMove × List Nat
  | a :: b :: rest =>
    let st' := st.set a (st.getD b 0)
    let res := moveChainedAux st' (b :: rest)
    (ShufMove.lane a b :: res.1, res.2)
  | _ => ([], st)

/-- The `moveChained(lanes, rotate)` lambda of the in-place shuffle: when
`rotate` is set it saves the first lane to the temporary register, performs the
chained lane moves, then restores the saved value into the last lane. -/
def moveChained (lanes : List Nat) (rotate : Bool) (st : List Nat) :
    List ShufMove × List Nat :=
  let firstState := st.getD (lanes.headD 0) 0
  let res := moveChainedAux st lanes
  if rotate then
    (ShufMove.toTemp (lanes.headD 0) :: res.1 ++ [ShufMove.fromTemp (lanes.getLastD 0)],
      res.2.set (lanes.getLastD 0) firstState)
  else res

/-- One iteration (lane `i`) of the in-place shuffle loop: skip when the lane
already holds its goal, otherwise follow the needed-by chain up to depth 3 and
realize it with `moveChained`.  The accumulator carries the emitted moves and
the tracked `state` array. -/
def shuffleStep (goal : List Nat) (acc : List ShufMove × List Nat) (i : Nat) :
    List ShufMove × List Nat :=
  let st := acc.2
  if goal.getD i 0 = st.getD i 0 then acc
  else
    let neededBy := findIndex goal (st.getD i 0) (i + 1)
    let foundIn := findIndex st (goal.getD i 0) 0
    if neededBy = 4 ∨ neededBy = foundIn then
      let res := moveChained [i, foundIn] (neededBy == foundIn) st
      (acc.1 ++ res.1, res.2)
    else
      let depth2 := findIndex goal (st.getD neededBy 0) (i + 1)
      if depth2 = 4 ∨ depth2 = foundIn then
        let res := moveChained [neededBy, i, foundIn] (depth2 == foundIn) st
        (acc.1 ++ res.1, res.2)
      else
        let depth3 := findIndex goal (st.getD depth2 0) (i + 1)
        let res := moveChained [depth2, neededBy, i, foundIn] (depth3 == foundIn) st
        (acc.1 ++ res.1, res.2)

/-- The four 2-bit lane selectors `goal[i] = (inst.src2 >> 2*i) & 3` of a
`Vec4Shuffle` immediate. -/
def shuffleGoal (imm : Nat) : List Nat :=
  [imm &&& 3, (imm >>> 2) &&& 3, (imm >>> 4) &&& 3, (imm >>> 6) &&& 3]

/-- The full in-place `Vec4Shuffle` algorithm: the list of emitted `FMV` moves
and the final tracked `state`, starting from `state = {0, 1, 2, 3}`. -/
def shuffleInPlace (imm : Nat) : List ShufMove × List Nat :=
  (List.range 4).foldl (shuffleStep (shuffleGoal imm)) ([], [0, 1, 2, 3])

/-- The moves emitted by the in-place branch of `Vec4Shuffle`. -/
def emitShuffleInPlace (imm : Nat) : List ShufMove :=
  (shuffleInPlace imm).1

/-- Execute one shuffle move on a state consisting of the four destination
lanes and the temporary register; `d` is the (never actually read)
out-of-range default. -/
def runMove {α : Type} (d : α) (s : List α × α) : ShufMove → List α × α
  | ShufMove.toTemp src => (s.1, s.1.getD src d)
  | ShufMove.fromTemp dst => (s.1.set dst s.2, s.2)
  | ShufMove.lane dst src => (s.1.set dst (s.1.getD src d), s.2)

/-- Execute a list of shuffle moves left to right. -/
def runMoves {α : Type} (d : α) (ms : List ShufMove) (s : List α × α) : List α × α :=
  ms.foldl (runMove d) s

theorem runMove_map {α β : Type} (f : α → β) (d : α) (s : List α × α) (m : ShufMove) :
    runMove (f d) (s.1.map f, f s.2) m = ((runMove d s m).1.map f, f (runMove d s m).2) := by
  cases m <;> simp [runMove, List.getD_map, List.map_set]

theorem runMoves_map {α β : Type} (f : α → β) (d : α) (ms : List ShufMove) (s : List α × α) :
    runMoves (f d) ms (s.1.map f, f s.2) =
      ((runMoves d ms s).1.map f, f (runMoves d ms s).2) := by
  induction ms generalizing s with
  | nil => simp [runMoves]
  | cons m ms ih =>
    simp only [runMoves, List.foldl]
    rw [runMove_map]
    exact ih (runMove d s m)

/-- Exhaustive check of the in-place algorithm over all 256 immediates on the
symbolic state that stores, in each lane, the index of the original value it
holds: after running the emitted moves, lane `i` holds original lane
`goal[i]`.  (4 marks the temporary's initial content, 5 the unused default.) -/
theorem shuffleInPlace_core :
    ∀ imm < 256,
      (runMoves 5 (emitShuffleInPlace imm) ([0, 1, 2, 3], 4)).1 = shuffleGoal imm := by
  decide

/-! ### Move counts of the in-place shuffle (spec's move-count bound) -/

/-- Number of lane-to-lane `FMV`s among the emitted moves. -/
def countLaneMoves (ms : List ShufMove) : Nat :=
  (ms.filter fun m => match m with | ShufMove.lane _ _ => true | _ => false).length

/-- Number of moves into the temporary register. -/
def countToTemp (ms : List ShufMove) : Nat :=
  (ms.filter fun m => match m with | ShufMove.toTemp _ => true | _ => false).length

/-- Number of moves out of the temporary register. -/
def countFromTemp (ms : List ShufMove) : Nat :=
  (ms.filter fun m => match m with | ShufMove.fromTemp _ => true | _ => false).length

/-! ### A flat float-register machine for `FMV`-only sequences -/

/-- A single emitted `FMV(32, dst, src)` over the flat float-register file. -/
inductive FMVInst where
  | fmv (dst src : Nat)
deriving DecidableEq

/-- Point update of a register file. -/
def setReg {α : Type} (r : Nat → α) (d : Nat) (v : α) : Nat → α :=
  fun x => if x = d then v else r x

theorem setReg_same {α : Type} (r : Nat → α) (d : Nat) (v : α) : setReg r d v d = v := by
  simp [setReg]

theorem setReg_other {α : Type} (r : Nat → α) (d x : Nat) (v : α) (h : x ≠ d) :
    setReg r d v x = r x := by
  simp [setReg, h]

/-- Execute a list of `FMV`s left to right; each reads its source in the
current file, then writes its destination. -/
def runFMVs {α : Type} (ms : List FMVInst) (r : Nat → α) : Nat → α :=
  ms.foldl (fun r m => match m with | FMVInst.fmv dst src => setReg r dst (r src)) r

/-- The out-of-place (`dest ≠ src1`) branch of `Vec4Shuffle`: lane `i` is
filled directly from source lane `(inst.src2 >> (i * 2)) & 3`. -/
def emitShuffleOut (dest src1 imm : Nat) : List FMVInst :=
  (List.range 4).map fun i => FMVInst.fmv (dest + i) (src1 + ((imm >>> (i * 2)) &&& 3))

/-- The `Vec4Blend` case: lane `i` is copied from `src2` when bit `i` of
`inst.constant` is set and from `src1` otherwise. -/
def emitVec4Blend (dest src1 src2 c : Nat) : List FMVInst :=
  (List.range 4).map fun i =>
    FMVInst.fmv (dest + i) ((if (c >>> i) &&& 1 = 1 then src2 else src1) + i)

/-- Evaluation of any 4-lane parallel-move program `dest+j ← q j` whose reads
never touch an already-written destination lane: lane `i` of the result holds
the original value of `q i`. -/
theorem runFMVs_four {α : Type} (d : Nat) (q : Nat → Nat) (r : Nat → α)
    (h : ∀ j i, j < 4 → i < j → q j ≠ d + i) :
    ∀ i, i < 4 →
      runFMVs ((List.range 4).map fun j => FMVInst.fmv (d + j) (q j)) r (d + i) = r (q i) := by
  intro i hi
  have h10 := h 1 0 (by omega) (by omega)
  have h20 := h 2 0 (by omega) (by omega)
  have h21 := h 2 1 (by omega) (by omega)
  have h30 := h 3 0 (by omega) (by omega)
  have h31 := h 3 1 (by omega) (by omega)
  have h32 := h 3 2 (by omega) (by omega)
  simp only [Nat.add_zero] at h10 h20 h30
  have hrange : List.range 4 = [0, 1, 2, 3] := rfl
  rw [hrange]
  simp only [List.map, runFMVs, List.foldl]
  interval_cases i <;>
    simp [setReg, h10, h20, h21, h30, h31, h32]

theorem getD_six_eq_getD_four {α : Type} (v0 v1 v2 v3 t dflt : α) (n : Nat) (hn : n ≤ 3) :
    [v0, v1, v2, v3, t, dflt].getD n dflt = [v0, v1, v2, v3].getD n dflt := by
  interval_cases n <;> rfl

/-- **C1**: for every `Vec4Shuffle` selection immediate (all 256 of them), in
both the in-place branch (`dest = src1`, realized by the chained-move
algorithm with one temporary) and the out-of-place branch (emitting four
direct `FMV`s), destination lane `i` ends up holding the original source lane
`(imm >> 2*i) & 3`.  Lane values are arbitrary (`α`); register groups are
4-aligned as IR vector registers are. -/
theorem vec4Shuffle_lanes_spec {α : Type} (imm : Nat) (him : imm < 256)
    (v0 v1 v2 v3 t dflt : α) (dest src1 : Nat) (r : Nat → α)
    (hd : dest % 4 = 0) (hs : src1 % 4 = 0) (hne : dest ≠ src1) :
    ((runMoves dflt (emitShuffleInPlace imm) ([v0, v1, v2, v3], t)).1 =
        [[v0, v1, v2, v3].getD (imm &&& 3) dflt,
         [v0, v1, v2, v3].getD ((imm >>> 2) &&& 3) dflt,
         [v0, v1, v2, v3].getD ((imm >>> 4) &&& 3) dflt,
         [v0, v1, v2, v3].getD ((imm >>> 6) &&& 3) dflt]) ∧
      ∀ i, i < 4 →
        runFMVs (emitShuffleOut dest src1 imm) r (dest + i) =
          r (src1 + ((imm >>> (i * 2)) &&& 3)) := by
  constructor
  · -- in-place branch: transport the exhaustive index-level check along the
    -- assignment of concrete lane values.
    have hcore := shuffleInPlace_core imm him
    have hg0 : imm &&& 3 ≤ 3 := Nat.and_le_right
    have hg1 : (imm >>> 2) &&& 3 ≤ 3 := Nat.and_le_right
    have hg2 : (imm >>> 4) &&& 3 ≤ 3 := Nat.and_le_right
    have hg3 : (imm >>> 6) &&& 3 ≤ 3 := Nat.and_le_right
    calc (runMoves dflt (emitShuffleInPlace imm) ([v0, v1, v2, v3], t)).1
        = (runMoves 5 (emitShuffleInPlace imm) ([0, 1, 2, 3], 4)).1.map
            (fun n => [v0, v1, v2, v3, t, dflt].getD n dflt) := by
          exact congrArg Prod.fst
            (runMoves_map (fun n => [v0, v1, v2, v3, t, dflt].getD n dflt) 5
              (emitShuffleInPlace imm) ([0, 1, 2, 3], 4))
      _ = (shuffleGoal imm).map (fun n => [v0, v1, v2, v3, t, dflt].getD n dflt) := by
          rw [hcore]
      _ = _ := by
          simp only [shuffleGoal, List.map_cons, List.map_nil]
          rw [getD_six_eq_getD_four _ _ _ _ _ _ _ hg0, getD_six_eq_getD_four _ _ _ _ _ _ _ hg1,
            getD_six_eq_getD_four _ _ _ _ _ _ _ hg2, getD_six_eq_getD_four _ _ _ _ _ _ _ hg3]
  · -- out-of-place branch: a hazard-free parallel move.
    intro i hi
    exact runFMVs_four dest (fun j => src1 + ((imm >>> (j * 2)) &&& 3)) r
      (by
        intro j i hj hij
        have hl : (imm >>> (j * 2)) &&& 3 ≤ 3 := Nat.and_le_right
        show src1 + ((imm >>> (j * 2)) &&& 3) ≠ dest + i
        omega) i hi

theorem vec4Shuffle_lanes_spec_witness :
    (27 : Nat) < 256 ∧ (8 : Nat) % 4 = 0 ∧ (4 : Nat) % 4 = 0 ∧ (8 : Nat) ≠ 4 ∧
      ((runMoves 0 (emitShuffleInPlace 27) ([10, 20, 30, 40], 0)).1 =
          [[10, 20, 30, 40].getD (27 &&& 3) 0,
           [10, 20, 30, 40].getD ((27 >>> 2) &&& 3) 0,
           [10, 20, 30, 40].getD ((27 >>> 4) &&& 3) 0,
           [10, 20, 30, 40].getD ((27 >>> 6) &&& 3) 0] ∧
        ∀ i, i < 4 →
          runFMVs (emitShuffleOut 8 4 27) (fun n => n) (8 + i) =
            (fun n => n) (4 + ((27 >>> (i * 2)) &&& 3))) :=
  ⟨by decide, by decide, by decide, by decide,
    vec4Shuffle_lanes_spec 27 (by decide) 10 20 30 40 0 0 8 4 (fun n => n)
      (by decide) (by decide) (by decide)⟩

/-- **C2 (counterexample)**: the claimed bound fails in both components.  For
immediate 177 (`goal = {1, 0, 3, 2}`, two disjoint transpositions) the
in-place shuffle emits two temporary round-trips, not at most one; and for
immediate 2 (`goal = {2, 0, 0, 0}`) it emits four lane-to-lane moves, not at
most three. -/
theorem vec4Shuffle_moveBound_counterexample :
    (¬ (countLaneMoves (emitShuffleInPlace 177) ≤ 3 ∧
        countToTemp (emitShuffleInPlace 177) ≤ 1 ∧
        countFromTemp (emitShuffleInPlace 177) ≤ 1)) ∧
      ¬ (countLaneMoves (emitShuffleInPlace 2) ≤ 3 ∧
        countToTemp (emitShuffleInPlace 2) ≤ 1 ∧
        countFromTemp (emitShuffleInPlace 2) ≤ 1) := by
  decide

/-- **C2 (amended)**: for every in-place `Vec4Shuffle` immediate the emitted
code contains at most 4 lane-to-lane moves and at most 2 temporary round-trips
(each consisting of exactly one move into the temporary register and one move
out of it), and never more than 6 `FMV`s in total — the bound the source
comment itself states ("never worse than 6 FMVs"). -/
theorem vec4Shuffle_moveBound (imm : Nat) (him : imm < 256) :
    countLaneMoves (emitShuffleInPlace imm) ≤ 4 ∧
      countToTemp (emitShuffleInPlace imm) = countFromTemp (emitShuffleInPlace imm) ∧
      countToTemp (emitShuffleInPlace imm) ≤ 2 ∧
      (emitShuffleInPlace imm).length ≤ 6 :=
  (by decide :
    ∀ imm < 256,
      countLaneMoves (emitShuffleInPlace imm) ≤ 4 ∧
        countToTemp (emitShuffleInPlace imm) = countFromTemp (emitShuffleInPlace imm) ∧
        countToTemp (emitShuffleInPlace imm) ≤ 2 ∧
        (emitShuffleInPlace imm).length ≤ 6) imm him

theorem vec4Shuffle_moveBound_witness :
    (177 : Nat) < 256 ∧
      (countLaneMoves (emitShuffleInPlace 177) ≤ 4 ∧
        countToTemp (emitShuffleInPlace 177) = countFromTemp (emitShuffleInPlace 177) ∧
        countToTemp (emitShuffleInPlace 177) ≤ 2 ∧
        (emitShuffleInPlace 177).length ≤ 6) :=
  ⟨by decide, vec4Shuffle_moveBound 177 (by decide)⟩

/-! ### The `Vec4Dot` multiply / fused-multiply-add machine -/

/-- An emitted floating `FMUL`/`FMADD`; `fmadd d a b c` computes
`d := a * b + c`.  Lane arithmetic is modelled exactly (over `ℚ`), matching
the spec's note that floating-point reassociation is a documented
tolerance, not part of the functional claim. -/
inductive VInst where
  | fmul (d a b : Nat)
  | fmadd (d a b c : Nat)
deriving DecidableEq

/-- Execute a list of `FMUL`/`FMADD`s left to right over a rational register
file. -/
def runV (ms : List VInst) (r : Nat → ℚ) : Nat → ℚ :=
  ms.foldl (fun r m =>
    match m with
    | VInst.fmul d a b => setReg r d (r a * r b)
    | VInst.fmadd d a b c => setReg r d (r a * r b + r c)) r

/-- The aliasing test of `Vec4Dot`:
`(inst.dest < inst.src1 + 4 && inst.dest >= inst.src1) || (inst.dest < inst.src2 + 4 && inst.dest >= inst.src2)`. -/
def dotAliased (dest s1 s2 : Nat) : Prop :=
  (dest < s1 + 4 ∧ s1 ≤ dest) ∨ (dest < s2 + 4 ∧ s2 ≤ dest)

instance dotAliased_dec (dest s1 s2 : Nat) : Decidable (dotAliased dest s1 s2) := by
  unfold dotAliased
  infer_instance

/-- The instruction sequence emitted for `Vec4Dot`: when the destination
overlaps a source group, first a plain multiply for every overlapping lane,
then accumulating `FMADD`s for the non-overlapping lanes; otherwise a multiply
for lane 0 followed by `FMADD`s for lanes 1..3 in order. -/
def emitVec4Dot (dest s1 s2 : Nat) : List VInst :=
  if dotAliased dest s1 s2 then
    ((List.range 4).filterMap fun i =>
      if dest = s1 + i ∨ dest = s2 + i then some (VInst.fmul dest (s1 + i) (s2 + i))
      else none) ++
    ((List.range 4).filterMap fun i =>
      if dest ≠ s1 + i ∧ dest ≠ s2 + i then some (VInst.fmadd dest (s1 + i) (s2 + i) dest)
      else none)
  else
    VInst.fmul dest s1 s2 ::
      ((List.range 3).map fun j => VInst.fmadd dest (s1 + (j + 1)) (s2 + (j + 1)) dest)

/-- Evaluation of a multiply followed by three accumulating `FMADD`s whose
source operands never alias the accumulator. -/
theorem runV_mul_madd3 (d a0 b0 a1 b1 a2 b2 a3 b3 : Nat) (r : Nat → ℚ)
    (h1a : a1 ≠ d) (h1b : b1 ≠ d) (h2a : a2 ≠ d) (h2b : b2 ≠ d)
    (h3a : a3 ≠ d) (h3b : b3 ≠ d) :
    runV [VInst.fmul d a0 b0, VInst.fmadd d a1 b1 d, VInst.fmadd d a2 b2 d,
        VInst.fmadd d a3 b3 d] r d =
      r a0 * r b0 + r a1 * r b1 + r a2 * r b2 + r a3 * r b3 := by
  simp only [runV, List.foldl]
  simp [setReg, h1a, h1b, h2a, h2b, h3a, h3b]
  ring

/-- **C3**: for every `Vec4Dot` with 4-aligned source groups, the emitted
sequence is a multiply for the destination-aliasing lane followed by
accumulating multiplies for the other lanes when the destination register
coincides with one of the 8 source lane registers, and one multiply followed
by three fused multiply-accumulates in lane order when it does not; in both
cases the final destination value equals the left-to-right sum of the four
lane products of the original source values (arithmetic modelled exactly). -/
theorem vec4Dot_spec (dest s1 s2 : Nat) (h1 : s1 % 4 = 0) (h2 : s2 % 4 = 0)
    (r : Nat → ℚ) :
    runV (emitVec4Dot dest s1 s2) r dest =
        r s1 * r s2 + r (s1 + 1) * r (s2 + 1) + r (s1 + 2) * r (s2 + 2) +
          r (s1 + 3) * r (s2 + 3) ∧
      (dotAliased dest s1 s2 →
        emitVec4Dot dest s1 s2 =
          VInst.fmul dest (s1 + dest % 4) (s2 + dest % 4) ::
            ((List.range 4).filterMap fun i =>
              if i = dest % 4 then none
              else some (VInst.fmadd dest (s1 + i) (s2 + i) dest))) ∧
      (¬ dotAliased dest s1 s2 →
        emitVec4Dot dest s1 s2 =
          [VInst.fmul dest s1 s2, VInst.fmadd dest (s1 + 1) (s2 + 1) dest,
           VInst.fmadd dest (s1 + 2) (s2 + 2) dest,
           VInst.fmadd dest (s1 + 3) (s2 + 3) dest]) := by
  by_cases ha : dotAliased dest s1 s2
  · have ha2 : (dest < s1 + 4 ∧ s1 ≤ dest) ∨ (dest < s2 + 4 ∧ s2 ≤ dest) := ha
    have hk : dest = s1 + dest % 4 ∨ dest = s2 + dest % 4 := by omega
    have hk4 : dest % 4 = 0 ∨ dest % 4 = 1 ∨ dest % 4 = 2 ∨ dest % 4 = 3 := by omega
    rcases hk4 with h | h | h | h <;> rw [h] at hk ⊢
    · -- destination aliases lane 0
      have hc0 : (dest = s1 ∨ dest = s2) = True := eq_true (by omega)
      have hc1 : (dest = s1 + 1 ∨ dest = s2 + 1) = False := eq_false (by omega)
      have hc2 : (dest = s1 + 2 ∨ dest = s2 + 2) = False := eq_false (by omega)
      have hc3 : (dest = s1 + 3 ∨ dest = s2 + 3) = False := eq_false (by omega)
      have hd0 : (dest ≠ s1 ∧ dest ≠ s2) = False := eq_false (by omega)
      have hd1 : (dest ≠ s1 + 1 ∧ dest ≠ s2 + 1) = True := eq_true (by omega)
      have hd2 : (dest ≠ s1 + 2 ∧ dest ≠ s2 + 2) = True := eq_true (by omega)
      have hd3 : (dest ≠ s1 + 3 ∧ dest ≠ s2 + 3) = True := eq_true (by omega)
      have hemit : emitVec4Dot dest s1 s2 = VInst.fmul dest (s1) (s2) :: [VInst.fmadd dest (s1 + 1) (s2 + 1) dest, VInst.fmadd dest (s1 + 2) (s2 + 2) dest, VInst.fmadd dest (s1 + 3) (s2 + 3) dest] := by
        unfold emitVec4Dot
        rw [if_pos ha, show (List.range 4) = [0, 1, 2, 3] from rfl]
        simp [List.filterMap_cons, hc0, hc1, hc2, hc3, hd0, hd1, hd2, hd3]
      refine ⟨?_, fun _ => ?_, fun hna => absurd ha hna⟩
      · rw [hemit]
        rw [runV_mul_madd3 dest (s1) (s2) (s1 + 1) (s2 + 1) (s1 + 2) (s2 + 2) (s1 + 3) (s2 + 3) r
          (by omega) (by omega) (by omega) (by omega) (by omega) (by omega)]
      · rw [hemit, show (List.range 4) = [0, 1, 2, 3] from rfl]
        simp [List.filterMap_cons]
    · -- destination aliases lane 1
      have hc0 : (dest = s1 ∨ dest = s2) = False := eq_false (by omega)
      have hc1 : (dest = s1 + 1 ∨ dest = s2 + 1) = True := eq_true (by omega)
      have hc2 : (dest = s1 + 2 ∨ dest = s2 + 2) = False := eq_false (by omega)
      have hc3 : (dest = s1 + 3 ∨ dest = s2 + 3) = False := eq_false (by omega)
      have hd0 : (dest ≠ s1 ∧ dest ≠ s2) = True := eq_true (by omega)
      have hd1 : (dest ≠ s1 + 1 ∧ dest ≠ s2 + 1) = False := eq_false (by omega)
      have hd2 : (dest ≠ s1 + 2 ∧ dest ≠ s2 + 2) = True := eq_true (by omega)
      have hd3 : (dest ≠ s1 + 3 ∧ dest ≠ s2 + 3) = True := eq_true (by omega)
      have hemit : emitVec4Dot dest s1 s2 = VInst.fmul dest (s1 + 1) (s2 + 1) :: [VInst.fmadd dest (s1) (s2) dest, VInst.fmadd dest (s1 + 2) (s2 + 2) dest, VInst.fmadd dest (s1 + 3) (s2 + 3) dest] := by
        unfold emitVec4Dot
        rw [if_pos ha, show (List.range 4) = [0, 1, 2, 3] from rfl]
        simp [List.filterMap_cons, hc0, hc1, hc2, hc3, hd0, hd1, hd2, hd3]
      refine ⟨?_, fun _ => ?_, fun hna => absurd ha hna⟩
      · rw [hemit]
        rw [runV_mul_madd3 dest (s1 + 1) (s2 + 1) (s1) (s2) (s1 + 2) (s2 + 2) (s1 + 3) (s2 + 3) r
          (by omega) (by omega) (by omega) (by omega) (by omega) (by omega)]
        ring
      · rw [hemit, show (List.range 4) = [0, 1, 2, 3] from rfl]
        simp [List.filterMap_cons]
    · -- destination aliases lane 2
      have hc0 : (dest = s1 ∨ dest = s2) = False := eq_false (by omega)
      have hc1 : (dest = s1 + 1 ∨ dest = s2 + 1) = False := eq_false (by omega)
      have hc2 : (dest = s1 + 2 ∨ dest = s2 + 2) = True := eq_true (by omega)
      have hc3 : (dest = s1 + 3 ∨ dest = s2 + 3) = False := eq_false (by omega)
      have hd0 : (dest ≠ s1 ∧ dest ≠ s2) = True := eq_true (by omega)
      have hd1 : (dest ≠ s1 + 1 ∧ dest ≠ s2 + 1) = True := eq_true (by omega)
      have hd2 : (dest ≠ s1 + 2 ∧ dest ≠ s2 + 2) = False := eq_false (by omega)
      have hd3 : (dest ≠ s1 + 3 ∧ dest ≠ s2 + 3) = True := eq_true (by omega)
      have hemit : emitVec4Dot dest s1 s2 = VInst.fmul dest (s1 + 2) (s2 + 2) :: [VInst.fmadd dest (s1) (s2) dest, VInst.fmadd dest (s1 + 1) (s2 + 1) dest, VInst.fmadd dest (s1 + 3) (s2 + 3) dest] := by
        unfold emitVec4Dot
        rw [if_pos ha, show (List.range 4) = [0, 1, 2, 3] from rfl]
        simp [List.filterMap_cons, hc0, hc1, hc2, hc3, hd0, hd1, hd2, hd3]
      refine ⟨?_, fun _ => ?_, fun hna => absurd ha hna⟩
      · rw [hemit]
        rw [runV_mul_madd3 dest (s1 + 2) (s2 + 2) (s1) (s2) (s1 + 1) (s2 + 1) (s1 + 3) (s2 + 3) r
          (by omega) (by omega) (by omega) (by omega) (by omega) (by omega)]
        ring
      · rw [hemit, show (List.range 4) = [0, 1, 2, 3] from rfl]
        simp [List.filterMap_cons]
    · -- destination aliases lane 3
      have hc0 : (dest = s1 ∨ dest = s2) = False := eq_false (by omega)
      have hc1 : (dest = s1 + 1 ∨ dest = s2 + 1) = False := eq_false (by omega)
      have hc2 : (dest = s1 + 2 ∨ dest = s2 + 2) = False := eq_false (by omega)
      have hc3 : (dest = s1 + 3 ∨ dest = s2 + 3) = True := eq_true (by omega)
      have hd0 : (dest ≠ s1 ∧ dest ≠ s2) = True := eq_true (by omega)
      have hd1 : (dest ≠ s1 + 1 ∧ dest ≠ s2 + 1) = True := eq_true (by omega)
      have hd2 : (dest ≠ s1 + 2 ∧ dest ≠ s2 + 2) = True := eq_true (by omega)
      have hd3 : (dest ≠ s1 + 3 ∧ dest ≠ s2 + 3) = False := eq_false (by omega)
      have hemit : emitVec4Dot dest s1 s2 = VInst.fmul dest (s1 + 3) (s2 + 3) :: [VInst.fmadd dest (s1) (s2) dest, VInst.fmadd dest (s1 + 1) (s2 + 1) dest, VInst.fmadd dest (s1 + 2) (s2 + 2) dest] := by
        unfold emitVec4Dot
        rw [if_pos ha, show (List.range 4) = [0, 1, 2, 3] from rfl]
        simp [List.filterMap_cons, hc0, hc1, hc2, hc3, hd0, hd1, hd2, hd3]
      refine ⟨?_, fun _ => ?_, fun hna => absurd ha hna⟩
      · rw [hemit]
        rw [runV_mul_madd3 dest (s1 + 3) (s2 + 3) (s1) (s2) (s1 + 1) (s2 + 1) (s1 + 2) (s2 + 2) r
          (by omega) (by omega) (by omega) (by omega) (by omega) (by omega)]
        ring
      · rw [hemit, show (List.range 4) = [0, 1, 2, 3] from rfl]
        simp [List.filterMap_cons]
  · have ha2 : ¬ ((dest < s1 + 4 ∧ s1 ≤ dest) ∨ (dest < s2 + 4 ∧ s2 ≤ dest)) := ha
    have hemit : emitVec4Dot dest s1 s2 =
        [VInst.fmul dest s1 s2, VInst.fmadd dest (s1 + 1) (s2 + 1) dest,
         VInst.fmadd dest (s1 + 2) (s2 + 2) dest,
         VInst.fmadd dest (s1 + 3) (s2 + 3) dest] := by
      unfold emitVec4Dot
      rw [if_neg ha]
      rfl
    refine ⟨?_, fun hal => absurd hal ha, fun _ => hemit⟩
    rw [hemit]
    rw [runV_mul_madd3 dest s1 s2 (s1 + 1) (s2 + 1) (s1 + 2) (s2 + 2) (s1 + 3) (s2 + 3) r
      (by omega) (by omega) (by omega) (by omega) (by omega) (by omega)]

theorem vec4Dot_spec_witness :
    (0 : Nat) % 4 = 0 ∧ (4 : Nat) % 4 = 0 ∧
      (runV (emitVec4Dot 2 0 4) (fun n : Nat => (n : ℚ)) 2 =
          (fun n : Nat => (n : ℚ)) 0 * (fun n : Nat => (n : ℚ)) 4 +
            (fun n : Nat => (n : ℚ)) (0 + 1) * (fun n : Nat => (n : ℚ)) (4 + 1) +
            (fun n : Nat => (n : ℚ)) (0 + 2) * (fun n : Nat => (n : ℚ)) (4 + 2) +
            (fun n : Nat => (n : ℚ)) (0 + 3) * (fun n : Nat => (n : ℚ)) (4 + 3) ∧
        (dotAliased 2 0 4 →
          emitVec4Dot 2 0 4 =
            VInst.fmul 2 (0 + 2 % 4) (4 + 2 % 4) ::
              ((List.range 4).filterMap fun i =>
                if i = 2 % 4 then none
                else some (VInst.fmadd 2 (0 + i) (4 + i) 2))) ∧
        (¬ dotAliased 2 0 4 →
          emitVec4Dot 2 0 4 =
            [VInst.fmul 2 0 4, VInst.fmadd 2 (0 + 1) (4 + 1) 2,
             VInst.fmadd 2 (0 + 2) (4 + 2) 2, VInst.fmadd 2 (0 + 3) (4 + 3) 2])) :=
  ⟨by decide, by decide, vec4Dot_spec 2 0 4 (by decide) (by decide) (fun n : Nat => (n : ℚ))⟩

/-- **C4**: for every `Vec4Blend` and every 4-bit mask value, output lane `i`
is the original lane `i` of `src2` when bit `i` of the mask is set and the
original lane `i` of `src1` otherwise; with 4-aligned register groups this
holds even when the destination group aliases a source group, because each
lane's read happens before that lane's write and never touches an
already-written destination lane. -/
theorem vec4Blend_spec {α : Type} (dest src1 src2 c : Nat) (r : Nat → α)
    (hd : dest % 4 = 0) (h1 : src1 % 4 = 0) (h2 : src2 % 4 = 0) (hc : c < 16)
    (i : Nat) (hi : i < 4) :
    runFMVs (emitVec4Blend dest src1 src2 c) r (dest + i) =
      r ((if (c >>> i) &&& 1 = 1 then src2 else src1) + i) := by
  exact runFMVs_four dest (fun j => (if (c >>> j) &&& 1 = 1 then src2 else src1) + j) r
    (by
      intro j i hj hij
      show (if (c >>> j) &&& 1 = 1 then src2 else src1) + j ≠ dest + i
      by_cases hb : (c >>> j) &&& 1 = 1
      · rw [if_pos hb]; omega
      · rw [if_neg hb]; omega) i hi

theorem vec4Blend_spec_witness :
    (0 : Nat) % 4 = 0 ∧ (0 : Nat) % 4 = 0 ∧ (4 : Nat) % 4 = 0 ∧ (5 : Nat) < 16 ∧
      (2 : Nat) < 4 ∧
      runFMVs (emitVec4Blend 0 0 4 5) (fun n => n) (0 + 2) =
        (fun n => n) ((if (5 >>> 2) &&& 1 = 1 then 4 else 0) + 2) :=
  ⟨by decide, by decide, by decide, by decide, by decide,
    vec4Blend_spec 0 0 4 5 (fun n => n) (by decide) (by decide) (by decide) (by decide)
      2 (by decide)⟩

/-! ### Bit-level modelling of pack / unpack / clamp -/

/-- `FMV.X.W` on RV64: the 32-bit float bit pattern is sign-extended into the
64-bit integer register. -/
def sext32_64 (x : Nat) : Nat :=
  if x < 2 ^ 31 then x else x + (2 ^ 64 - 2 ^ 32)

/-- `SRAIW rd, rs, 31`: arithmetic right shift of the low 32 bits by 31,
sign-extended to 64 bits — all-ones when bit 31 of the low word is set,
zero otherwise. -/
def sraiw31 (v : Nat) : Nat :=
  if (v % 2 ^ 32) / 2 ^ 31 = 1 then 2 ^ 64 - 1 else 0

/-- `NOT rd, rs` (the `XORI rd, rs, -1` pseudo-instruction) on a 64-bit
register. -/
def rvNOT (v : Nat) : Nat := v ^^^ (2 ^ 64 - 1)

/-- Zbb `ANDN rd, rs1, rs2`: `rs1` and-not `rs2`. -/
def rvANDN (a b : Nat) : Nat := Nat.ldiff a b

/-- One lane of `Vec4ClampToZero`: `FMV.X.W`, `SRAIW` by 31, then either the
Zbb `ANDN` or the `NOT`+`AND` sequence, then `FMV.W.X` back into the
destination lane (low 32 bits). -/
def vec4ClampToZeroLane (zbb : Bool) (x : Nat) : Nat :=
  let s1 := sext32_64 x
  let s2 := sraiw31 s1
  (if zbb then rvANDN s1 s2 else s1 &&& rvNOT s2) % 2 ^ 32

/-- Lane `i` of `Vec4Unpack8To32`: `FMV.X.W SCRATCH2, src`; for `i ≠ 0`
`SRLI` by `i * 8` then `SLLI` by 24, for `i = 0` just `SLLI` by 24; then
`FMV.W.X` moves the low 32 bits into the destination lane. -/
def vec4Unpack8To32Lane (src i : Nat) : Nat :=
  let s2 := sext32_64 src
  let s1 := if i ≠ 0 then ((s2 >>> (i * 8)) <<< 24) % 2 ^ 64 else (s2 <<< 24) % 2 ^ 64
  s1 % 2 ^ 32

/-- The byte `Vec4Pack31To8` extracts from one lane: `FMV.X.W`, `SRLI` by 23,
`ANDI` with `0xFF`. -/
def pack31To8Byte (lane : Nat) : Nat :=
  (sext32_64 lane >>> 23) &&& 255

/-- `Vec4Pack31To8`: each lane's extracted byte is shifted into position and
OR-combined in `SCRATCH2`; the low 32 bits go to the destination. -/
def vec4Pack31To8 (l0 l1 l2 l3 : Nat) : Nat :=
  let acc0 := pack31To8Byte l0
  let acc1 := acc0 ||| ((pack31To8Byte l1 <<< 8) % 2 ^ 64)
  let acc2 := acc1 ||| ((pack31To8Byte l2 <<< 16) % 2 ^ 64)
  let acc3 := acc2 ||| ((pack31To8Byte l3 <<< 24) % 2 ^ 64)
  acc3 % 2 ^ 32

/-- The round trip of the spec's pack/unpack property, built from the two
native routines of this file: unpack a 32-bit word into four lanes with
`Vec4Unpack8To32`, then re-pack them with `Vec4Pack31To8`. -/
def unpackThenPack (src : Nat) : Nat :=
  vec4Pack31To8 (vec4Unpack8To32Lane src 0) (vec4Unpack8To32Lane src 1)
    (vec4Unpack8To32Lane src 2) (vec4Unpack8To32Lane src 3)

theorem land_two_pow_sub_one (a n : Nat) : a &&& (2 ^ n - 1) = a % 2 ^ n := by
  apply Nat.eq_of_testBit_eq
  intro i
  rw [Nat.testBit_land, Nat.testBit_two_pow_sub_one, Nat.testBit_mod_two_pow, Bool.and_comm]

theorem ldiff_zero_eq (a : Nat) : Nat.ldiff a 0 = a := by
  apply Nat.eq_of_testBit_eq
  intro i
  rw [Nat.testBit_ldiff]
  simp

theorem ldiff_allOnes (a n : Nat) (ha : a < 2 ^ n) : Nat.ldiff a (2 ^ n - 1) = 0 := by
  apply Nat.eq_of_testBit_eq
  intro i
  rw [Nat.testBit_ldiff, Nat.testBit_two_pow_sub_one]
  rcases Nat.lt_or_ge i n with h | h
  · simp [h]
  · have hA : a.testBit i = false :=
      Nat.testBit_lt_two_pow (lt_of_lt_of_le ha (Nat.pow_le_pow_right (by norm_num) h))
    simp [hA]

/-- **C6**: for both host variants (with and without the Zbb extension) and
every 32-bit lane bit pattern, `Vec4ClampToZero` maps a lane with the sign
bit set to the all-zero pattern and passes a lane with the sign bit clear
through unchanged. -/
theorem vec4ClampToZero_spec (zbb : Bool) (x : Nat) (hx : x < 2 ^ 32) :
    vec4ClampToZeroLane zbb x = if 2 ^ 31 ≤ x then 0 else x := by
  simp only [vec4ClampToZeroLane]
  by_cases hs : x < 2 ^ 31
  · have e1 : sext32_64 x = x := if_pos hs
    have e2 : sraiw31 x = 0 := if_neg (by omega)
    rw [e1, e2, if_neg (by omega : ¬ 2 ^ 31 ≤ x)]
    cases zbb
    · show (x &&& rvNOT 0) % 2 ^ 32 = x
      rw [rvNOT, Nat.zero_xor, land_two_pow_sub_one]
      omega
    · show rvANDN x 0 % 2 ^ 32 = x
      rw [rvANDN, ldiff_zero_eq]
      omega
  · have e1 : sext32_64 x = x + (2 ^ 64 - 2 ^ 32) := if_neg hs
    have e2 : sraiw31 (x + (2 ^ 64 - 2 ^ 32)) = 2 ^ 64 - 1 := if_pos (by omega)
    rw [e1, e2, if_pos (by omega : 2 ^ 31 ≤ x)]
    cases zbb
    · show ((x + (2 ^ 64 - 2 ^ 32)) &&& rvNOT (2 ^ 64 - 1)) % 2 ^ 32 = 0
      rw [rvNOT, Nat.xor_self, Nat.and_zero, Nat.zero_mod]
    · show rvANDN (x + (2 ^ 64 - 2 ^ 32)) (2 ^ 64 - 1) % 2 ^ 32 = 0
      rw [rvANDN, ldiff_allOnes _ 64 (by omega), Nat.zero_mod]

theorem vec4ClampToZero_spec_witness :
    ((2147483648 : Nat) < 2 ^ 32 ∧
        vec4ClampToZeroLane true 2147483648 = if 2 ^ 31 ≤ 2147483648 then 0 else 2147483648) ∧
      (5 : Nat) < 2 ^ 32 ∧
        vec4ClampToZeroLane false 5 = if 2 ^ 31 ≤ 5 then 0 else 5 :=
  ⟨⟨by norm_num, vec4ClampToZero_spec true 2147483648 (by norm_num)⟩,
    by norm_num, vec4ClampToZero_spec false 5 (by norm_num)⟩

/-- **C9**: the Zbb `ANDN` instruction and the `NOT` + `AND` fallback
sequence used by `Vec4ClampToZero` compute the same value-and-not-mask
result for every pair of 64-bit register values. -/
theorem andn_not_and_equiv (a b : Nat) (ha : a < 2 ^ 64) (hb : b < 2 ^ 64) :
    rvANDN a b = a &&& rvNOT b := by
  rw [rvANDN, rvNOT]
  apply Nat.eq_of_testBit_eq
  intro i
  rw [Nat.testBit_ldiff, Nat.testBit_land, Nat.testBit_xor, Nat.testBit_two_pow_sub_one]
  rcases Nat.lt_or_ge i 64 with h | h
  · simp [h]
  · have hA : a.testBit i = false :=
      Nat.testBit_lt_two_pow (lt_of_lt_of_le ha (Nat.pow_le_pow_right (by norm_num) h))
    have h2 : ¬ (i < 64) := by omega
    simp [hA, h2]

theorem andn_not_and_equiv_witness :
    (2863311530 : Nat) < 2 ^ 64 ∧ (4042322160 : Nat) < 2 ^ 64 ∧
      rvANDN 2863311530 4042322160 = 2863311530 &&& rvNOT 4042322160 :=
  ⟨by norm_num, by norm_num, andn_not_and_equiv 2863311530 4042322160 (by norm_num) (by norm_num)⟩

/-- **C10**: for every 32-bit source pattern, lane `i` of `Vec4Unpack8To32`
holds byte `i` of the source in bits 31..24 and zeros in bits 23..0. -/
theorem vec4Unpack8To32_spec (src : Nat) (hsrc : src < 2 ^ 32) (i : Nat) (hi : i < 4) :
    vec4Unpack8To32Lane src i = ((src >>> (8 * i)) % 2 ^ 8) * 2 ^ 24 := by
  have h4 : i = 0 ∨ i = 1 ∨ i = 2 ∨ i = 3 := by omega
  simp only [vec4Unpack8To32Lane]
  by_cases hs : src < 2 ^ 31
  · rw [show sext32_64 src = src from if_pos hs]
    rcases h4 with h | h | h | h <;> subst h <;> split <;> omega
  · rw [show sext32_64 src = src + (2 ^ 64 - 2 ^ 32) from if_neg hs]
    rcases h4 with h | h | h | h <;> subst h <;> split <;> omega

theorem vec4Unpack8To32_spec_witness :
    (305419896 : Nat) < 2 ^ 32 ∧ (2 : Nat) < 4 ∧
      vec4Unpack8To32Lane 305419896 2 = ((305419896 >>> (8 * 2)) % 2 ^ 8) * 2 ^ 24 :=
  ⟨by norm_num, by norm_num, vec4Unpack8To32_spec 305419896 (by norm_num) 2 (by norm_num)⟩

/-- **C5 (counterexample)**: re-packing the unpacked byte 1 yields 2, not 1:
the native unpack (`Vec4Unpack8To32`) places each byte in bits 31..24 of its
lane while the native pack (`Vec4Pack31To8`) extracts bits 30..23, so the
round trip is not the identity. -/
theorem packUnpack_roundTrip_counterexample :
    unpackThenPack 1 = 2 ∧ unpackThenPack 1 ≠ 1 := by
  decide

/-- **C5 (amended)**: for every byte value `b` placed in any of the four byte
positions, unpacking with `Vec4Unpack8To32` and re-packing with
`Vec4Pack31To8` yields `(2 * b) % 256` in that byte position rather than `b`:
the pack routine reads one bit position lower than where the unpack routine
wrote the byte. -/
theorem packUnpack_roundTrip (b i : Nat) (hb : b < 256) (hi : i < 4) :
    unpackThenPack (b <<< (8 * i)) = ((2 * b) % 256) <<< (8 * i) :=
  (by decide :
    ∀ b < 256, ∀ i < 4,
      unpackThenPack (b <<< (8 * i)) = ((2 * b) % 256) <<< (8 * i)) b hb i hi

theorem packUnpack_roundTrip_witness :
    (7 : Nat) < 256 ∧ (3 : Nat) < 4 ∧
      unpackThenPack (7 <<< (8 * 3)) = ((2 * 7) % 256) <<< (8 * 3) :=
  ⟨by decide, by decide, packUnpack_roundTrip 7 3 (by decide) (by decide)⟩

/-! ### Register-cache call traces and compile outcomes -/

/-- The IR opcodes dispatched to the five vector code-generation routines of
the file, plus `other` for any opcode reaching a routine's `default` branch. -/
inductive IROpV where
  | Vec4Init | Vec4Shuffle | Vec4Blend | Vec4Mov
  | Vec4Add | Vec4Sub | Vec4Mul | Vec4Div | Vec4Scale | Vec4Neg | Vec4Abs
  | Vec4Dot
  | Vec2Unpack16To31 | Vec2Unpack16To32 | Vec4Pack32To8 | Vec2Pack31To16
  | Vec4Unpack8To32 | Vec4DuplicateUpperBitsAndShift1 | Vec4Pack31To8
  | Vec2Pack32To16
  | Vec4ClampToZero | Vec2ClampToZero
  | other
deriving DecidableEq

/-- The five vector code-generation routines
(`CompIR_VecAssign`, `CompIR_VecArith`, `CompIR_VecHoriz`, `CompIR_VecPack`,
`CompIR_VecClamp`). -/
inductive VecRoutine where
  | assign | arith | horiz | pack | clamp
deriving DecidableEq

/-- One call into the register cache (`fpr`), or the delegation marker for
`CompIR_Generic`.  `mapReg r noinit` records `MapReg(r)` /
`MapReg(r, MIPSMap::NOINIT)`. -/
inductive RCCall where
  | spillLock (r : Nat)
  | releaseSpillLock (r : Nat)
  | releaseSpillLocksAndDiscardTemps
  | mapReg (r : Nat) (noinit : Bool)
  | map4DirtyIn (d s : Nat)
  | map4DirtyInIn (d s1 s2 : Nat)
  | map4DirtyInTemp (d s : Nat)
  | mapDirtyInIn (d s1 s2 : Nat)
  | generic
deriving DecidableEq

/-- The sequence of register-cache calls each routine makes for each opcode
(with `inst.dest`, `inst.src1`, `inst.src2` written `d`, `s1`, `s2`), in the
textual order of the source. -/
def rcTrace (rt : VecRoutine) (op : IROpV) (d s1 s2 : Nat) : List RCCall :=
  match rt, op with
  | VecRoutine.assign, IROpV.Vec4Init =>
    [RCCall.spillLock d, RCCall.spillLock (d + 1), RCCall.spillLock (d + 2),
     RCCall.spillLock (d + 3),
     RCCall.mapReg d true, RCCall.mapReg (d + 1) true, RCCall.mapReg (d + 2) true,
     RCCall.mapReg (d + 3) true,
     RCCall.releaseSpillLock d, RCCall.releaseSpillLock (d + 1),
     RCCall.releaseSpillLock (d + 2), RCCall.releaseSpillLock (d + 3)]
  | VecRoutine.assign, IROpV.Vec4Shuffle =>
    if d = s1 then [RCCall.map4DirtyInTemp d s1] else [RCCall.map4DirtyIn d s1]
  | VecRoutine.assign, IROpV.Vec4Blend => [RCCall.map4DirtyInIn d s1 s2]
  | VecRoutine.assign, IROpV.Vec4Mov => [RCCall.map4DirtyIn d s1]
  | VecRoutine.arith, IROpV.Vec4Add => [RCCall.map4DirtyInIn d s1 s2]
  | VecRoutine.arith, IROpV.Vec4Sub => [RCCall.map4DirtyInIn d s1 s2]
  | VecRoutine.arith, IROpV.Vec4Mul => [RCCall.map4DirtyInIn d s1 s2]
  | VecRoutine.arith, IROpV.Vec4Div => [RCCall.map4DirtyInIn d s1 s2]
  | VecRoutine.arith, IROpV.Vec4Scale =>
    [RCCall.spillLock s2, RCCall.mapReg s2 false, RCCall.map4DirtyIn d s1,
     RCCall.releaseSpillLock s2]
  | VecRoutine.arith, IROpV.Vec4Neg => [RCCall.map4DirtyIn d s1]
  | VecRoutine.arith, IROpV.Vec4Abs => [RCCall.map4DirtyIn d s1]
  | VecRoutine.horiz, IROpV.Vec4Dot =>
    [RCCall.spillLock d,
     RCCall.spillLock s1, RCCall.spillLock s2,
     RCCall.spillLock (s1 + 1), RCCall.spillLock (s2 + 1),
     RCCall.spillLock (s1 + 2), RCCall.spillLock (s2 + 2),
     RCCall.spillLock (s1 + 3), RCCall.spillLock (s2 + 3),
     RCCall.mapReg s1 false, RCCall.mapReg s2 false,
     RCCall.mapReg (s1 + 1) false, RCCall.mapReg (s2 + 1) false,
     RCCall.mapReg (s1 + 2) false, RCCall.mapReg (s2 + 2) false,
     RCCall.mapReg (s1 + 3) false, RCCall.mapReg (s2 + 3) false,
     RCCall.mapReg d true,
     RCCall.releaseSpillLock s1, RCCall.releaseSpillLock s2,
     RCCall.releaseSpillLock (s1 + 1), RCCall.releaseSpillLock (s2 + 1),
     RCCall.releaseSpillLock (s1 + 2), RCCall.releaseSpillLock (s2 + 2),
     RCCall.releaseSpillLock (s1 + 3), RCCall.releaseSpillLock (s2 + 3),
     RCCall.releaseSpillLock d]
  | VecRoutine.pack, IROpV.Vec2Unpack16To31 => [RCCall.generic]
  | VecRoutine.pack, IROpV.Vec2Unpack16To32 => [RCCall.generic]
  | VecRoutine.pack, IROpV.Vec4Pack32To8 => [RCCall.generic]
  | VecRoutine.pack, IROpV.Vec2Pack31To16 => [RCCall.generic]
  | VecRoutine.pack, IROpV.Vec4Unpack8To32 =>
    [RCCall.spillLock s1,
     RCCall.spillLock d, RCCall.spillLock (d + 1), RCCall.spillLock (d + 2),
     RCCall.spillLock (d + 3),
     RCCall.mapReg s1 false,
     RCCall.mapReg d true, RCCall.mapReg (d + 1) true, RCCall.mapReg (d + 2) true,
     RCCall.mapReg (d + 3) true,
     RCCall.releaseSpillLocksAndDiscardTemps]
  | VecRoutine.pack, IROpV.Vec4DuplicateUpperBitsAndShift1 => [RCCall.map4DirtyIn d s1]
  | VecRoutine.pack, IROpV.Vec4Pack31To8 =>
    [RCCall.spillLock d,
     RCCall.spillLock s1, RCCall.mapReg s1 false,
     RCCall.spillLock (s1 + 1), RCCall.mapReg (s1 + 1) false,
     RCCall.spillLock (s1 + 2), RCCall.mapReg (s1 + 2) false,
     RCCall.spillLock (s1 + 3), RCCall.mapReg (s1 + 3) false,
     RCCall.mapReg d true,
     RCCall.releaseSpillLocksAndDiscardTemps]
  | VecRoutine.pack, IROpV.Vec2Pack32To16 => [RCCall.mapDirtyInIn d s1 (s1 + 1)]
  | VecRoutine.clamp, IROpV.Vec4ClampToZero => [RCCall.map4DirtyIn d s1]
  | VecRoutine.clamp, IROpV.Vec2ClampToZero => [RCCall.generic]
  | _, _ => [RCCall.generic]

/-- Register-cache calls that map a guest register and may therefore trigger
a spill of an unrelated, currently-unlocked register. -/
def isMapCall : RCCall → Bool
  | RCCall.mapReg _ _ => true
  | RCCall.map4DirtyIn _ _ => true
  | RCCall.map4DirtyInIn _ _ _ => true
  | RCCall.map4DirtyInTemp _ _ => true
  | RCCall.mapDirtyInIn _ _ _ => true
  | _ => false

/-- Whether a call is a `SpillLock`. -/
def isLockCall : RCCall → Bool
  | RCCall.spillLock _ => true
  | _ => false

/-- No `SpillLock` occurs anywhere in the trace. -/
def noLocks : List RCCall → Bool
  | [] => true
  | c :: t => !isLockCall c && noLocks t

/-- Every `SpillLock` of the trace occurs before the first mapping call. -/
def locksBeforeMaps : List RCCall → Bool
  | [] => true
  | c :: t => if isMapCall c then noLocks t else locksBeforeMaps t

/-- **C7 (counterexample)**: in the `Vec4Pack31To8` case of the pack routine
the source-lane spill-locks are interleaved with the source-lane mapping
calls — `SpillLock(src1 + 1)` is issued after `MapReg(src1 + 0)`, which could
spill the then-unlocked `src1 + 1` — so the lock-before-map ordering rule
fails there. -/
theorem spillLock_order_counterexample :
    locksBeforeMaps (rcTrace VecRoutine.pack IROpV.Vec4Pack31To8 0 4 0) = false := by
  decide

/-- **C7 (amended)**: for every vector routine and every compiled instruction
except the `Vec4Pack31To8` case, all `SpillLock` calls are issued before any
register-mapping call. -/
theorem spillLock_order (rt : VecRoutine) (op : IROpV) (d s1 s2 : Nat)
    (hop : op ≠ IROpV.Vec4Pack31To8) :
    locksBeforeMaps (rcTrace rt op d s1 s2) = true := by
  cases rt <;> cases op <;>
    first
      | exact absurd rfl hop
      | rfl
      | exact (show locksBeforeMaps
            (if d = s1 then [RCCall.map4DirtyInTemp d s1] else [RCCall.map4DirtyIn d s1]) =
              true from by split <;> rfl)

theorem spillLock_order_witness :
    IROpV.Vec4Dot ≠ IROpV.Vec4Pack31To8 ∧
      locksBeforeMaps (rcTrace VecRoutine.horiz IROpV.Vec4Dot 9 0 4) = true :=
  ⟨by decide, spillLock_order VecRoutine.horiz IROpV.Vec4Dot 9 0 4 (by decide)⟩

/-- Possible outcomes of compiling one IR instruction: native host code, a
delegation to the generic (interpreted) compiler, or an error — the last is
never produced by any routine of this file. -/
inductive COutcome where
  | native | generic | error
deriving DecidableEq

/-- The outcome each vector routine produces for each opcode: the explicit
`CompIR_Generic` delegations and the `INVALIDOP` default branches delegate to
the generic compiler, every other case emits native code. -/
def compVecOutcome (rt : VecRoutine) (op : IROpV) : COutcome :=
  match rt, op with
  | VecRoutine.assign, IROpV.Vec4Init => COutcome.native
  | VecRoutine.assign, IROpV.Vec4Shuffle => COutcome.native
  | VecRoutine.assign, IROpV.Vec4Blend => COutcome.native
  | VecRoutine.assign, IROpV.Vec4Mov => COutcome.native
  | VecRoutine.arith, IROpV.Vec4Add => COutcome.native
  | VecRoutine.arith, IROpV.Vec4Sub => COutcome.native
  | VecRoutine.arith, IROpV.Vec4Mul => COutcome.native
  | VecRoutine.arith, IROpV.Vec4Div => COutcome.native
  | VecRoutine.arith, IROpV.Vec4Scale => COutcome.native
  | VecRoutine.arith, IROpV.Vec4Neg => COutcome.native
  | VecRoutine.arith, IROpV.Vec4Abs => COutcome.native
  | VecRoutine.horiz, IROpV.Vec4Dot => COutcome.native
  | VecRoutine.pack, IROpV.Vec2Unpack16To31 => COutcome.generic
  | VecRoutine.pack, IROpV.Vec2Unpack16To32 => COutcome.generic
  | VecRoutine.pack, IROpV.Vec4Pack32To8 => COutcome.generic
  | VecRoutine.pack, IROpV.Vec2Pack31To16 => COutcome.generic
  | VecRoutine.pack, IROpV.Vec4Unpack8To32 => COutcome.native
  | VecRoutine.pack, IROpV.Vec4DuplicateUpperBitsAndShift1 => COutcome.native
  | VecRoutine.pack, IROpV.Vec4Pack31To8 => COutcome.native
  | VecRoutine.pack, IROpV.Vec2Pack32To16 => COutcome.native
  | VecRoutine.clamp, IROpV.Vec4ClampToZero => COutcome.native
  | VecRoutine.clamp, IROpV.Vec2ClampToZero => COutcome.generic
  | _, _ => COutcome.generic

/-- **C8**: every vector routine, for every opcode it can receive, either
emits native code or delegates to the generic (interpreted) compiler — it
never produces an error; in particular the unimplemented pack/unpack variants
(`Vec2Unpack16To31`, `Vec2Unpack16To32`, `Vec4Pack32To8`, `Vec2Pack31To16`),
`Vec2ClampToZero`, and any opcode reaching a routine's `default` branch all
fall through to the generic path. -/
theorem compVecOutcome_no_error :
    (∀ rt op, compVecOutcome rt op ≠ COutcome.error) ∧
      compVecOutcome VecRoutine.pack IROpV.Vec2Unpack16To31 = COutcome.generic ∧
      compVecOutcome VecRoutine.pack IROpV.Vec2Unpack16To32 = COutcome.generic ∧
      compVecOutcome VecRoutine.pack IROpV.Vec4Pack32To8 = COutcome.generic ∧
      compVecOutcome VecRoutine.pack IROpV.Vec2Pack31To16 = COutcome.generic ∧
      compVecOutcome VecRoutine.clamp IROpV.Vec2ClampToZero = COutcome.generic ∧
      ∀ rt, compVecOutcome rt IROpV.other = COutcome.generic := by
  refine ⟨?_, rfl, rfl, rfl, rfl, rfl, ?_⟩
  · intro rt op
    cases rt <;> cases op <;> decide
  · intro rt
    cases rt <;> rfl
